import Mathlib

/-!
Shallow embedding of the netcrab network simulator (Rust) and proofs about
its specification claims.

Source files embedded:
  - src/proto/eth.rs   : MacAddr, EthFrame, EthPayload
  - src/proto/ip.rs    : IpAddrExt::take_prefix, IpPrefix, IpPrefix::matches
  - src/proto/ipv4.rs  : Ipv4Packet, Ipv4Payload
  - src/proto/arp.rs   : ArpIpv4Packet, ArpOp
  - src/proto/udp.rs   : UdpDatagram
  - src/net.rs         : LinkQueues, Link::send, Link::recv, listener bus,
                         Network::tick
  - src/node/eth.rs    : EthSwitch::tick
  - src/node/server/mod.rs : IpRoutes::fetch / fetch_inner, ServerNode
  - src/node/server/eth.rs : ServerEthIface::send_ipv4 / set_arp / recv_arp

Machine integers are modelled as Nat with explicit reduction modulo 2^32
where the Rust code operates on u32.  Rust shift-left on u32 panics in a
debug build when the shift amount is 32 or more, and masks the shift
amount modulo 32 in a release build; both semantics are embedded
(checked = Option-returning, wrap = total).
-/

namespace Netcrab

/-! ## Addresses (src/proto/eth.rs, src/proto/ipv4.rs) -/

/-- An IPv4 address, the wrapped Nat is the u32 value of the address
(big-endian octet interpretation, as in std::net::Ipv4Addr). -/
structure Ipv4Addr where
  val : Nat
deriving DecidableEq, Repr

/-- Octet 0 (most significant byte) of an IPv4 address. -/
def Ipv4Addr.octet0 (ip : Ipv4Addr) : Nat := (ip.val >>> 24) % 256

/-- Octet 1 of an IPv4 address. -/
def Ipv4Addr.octet1 (ip : Ipv4Addr) : Nat := (ip.val >>> 16) % 256

/-- Octet 2 of an IPv4 address. -/
def Ipv4Addr.octet2 (ip : Ipv4Addr) : Nat := (ip.val >>> 8) % 256

/-- Octet 3 (least significant byte) of an IPv4 address. -/
def Ipv4Addr.octet3 (ip : Ipv4Addr) : Nat := ip.val % 256

/-- std::net::Ipv4Addr::is_multicast: first octet in 224..=239. -/
def Ipv4Addr.isMulticast (ip : Ipv4Addr) : Bool :=
  224 ≤ ip.octet0 && ip.octet0 ≤ 239

/-- std::net::Ipv4Addr::is_broadcast: the address 255.255.255.255. -/
def Ipv4Addr.isBroadcast (ip : Ipv4Addr) : Bool :=
  ip.octet0 == 255 && ip.octet1 == 255 && ip.octet2 == 255 && ip.octet3 == 255

/-- A MAC address: six octets (MacAddr(pub [u8; 6]) in src/proto/eth.rs). -/
structure MacAddr where
  b0 : Nat
  b1 : Nat
  b2 : Nat
  b3 : Nat
  b4 : Nat
  b5 : Nat
deriving DecidableEq, Repr

/-- MacAddr::BROADCAST. -/
def MacAddr.BROADCAST : MacAddr := ⟨0xFF, 0xFF, 0xFF, 0xFF, 0xFF, 0xFF⟩

/-- MacAddr::ZERO. -/
def MacAddr.ZERO : MacAddr := ⟨0, 0, 0, 0, 0, 0⟩

/-- MacAddr::from_multicast_ipv4: 01:00:5E : (o1 and 0x7F) : o2 : o3. -/
def MacAddr.fromMulticastIpv4 (ip : Ipv4Addr) : MacAddr :=
  ⟨0x01, 0x00, 0x5E, ip.octet1 &&& 0x7F, ip.octet2, ip.octet3⟩

/-- MacAddr::is_unicast: lowest bit of the first octet is 0. -/
def MacAddr.isUnicast (m : MacAddr) : Bool := m.b0 &&& 0b01 == 0

/-- MacAddr::is_multicast: negation of is_unicast. -/
def MacAddr.isMulticast (m : MacAddr) : Bool := !m.isUnicast

/-! ## IP prefixes (src/proto/ip.rs) -/

/-- 2^32, the size of the u32 value space. -/
def u32size : Nat := 4294967296

/-- u32::MAX. -/
def u32MAX : Nat := 4294967295

/-- Rust u32 shift-left under a debug build: shifting by 32 or more
panics (attempt to shift left with overflow), modelled as none. -/
def u32ShlChecked (x n : Nat) : Option Nat :=
  if n < 32 then some ((x <<< n) % u32size) else none

/-- Rust u32 shift-left under a release build: the shift amount is
masked modulo the bit width. -/
def u32ShlWrap (x n : Nat) : Nat :=
  (x <<< (n % 32)) % u32size

/-- An IP prefix: a base address and a prefix length
(IpPrefix in src/proto/ip.rs). -/
structure IpPrefix where
  addr : Ipv4Addr
  prefix_len : Nat
deriving DecidableEq, Repr

/-- IpPrefix::ZERO, the zero-length prefix. -/
def IpPrefix.ZEROPFX : IpPrefix := ⟨⟨0⟩, 0⟩

/-- Ipv4Addr::take_prefix (IpAddrExt impl) under debug-build shift
semantics: computes the mask u32::MAX shifted left by 32 - prefix_len,
which panics (none) when prefix_len = 0 because the shift amount is 32. -/
def Ipv4Addr.takePrefixChecked (ip : Ipv4Addr) (prefix_len : Nat) : Option IpPrefix :=
  (u32ShlChecked u32MAX (32 - prefix_len)).map
    (fun mask => { addr := ⟨ip.val &&& mask⟩, prefix_len := prefix_len })

/-- Ipv4Addr::take_prefix under release-build shift semantics: the
shift amount 32 - prefix_len is masked modulo 32, so prefix_len = 0
yields a shift by 0 and the mask u32::MAX. -/
def Ipv4Addr.takePrefixWrap (ip : Ipv4Addr) (prefix_len : Nat) : IpPrefix :=
  { addr := ⟨ip.val &&& u32ShlWrap u32MAX (32 - prefix_len)⟩, prefix_len := prefix_len }

/-- IpPrefix::matches under debug-build shift semantics: the comparison
self.addr == ip.take_prefix(self.prefix_len).addr, propagating the
panic of take_prefix. -/
def IpPrefix.matchesChecked (p : IpPrefix) (ip : Ipv4Addr) : Option Bool :=
  (ip.takePrefixChecked p.prefix_len).map (fun q => p.addr == q.addr)

/-- IpPrefix::matches under release-build shift semantics. -/
def IpPrefix.matchesWrap (p : IpPrefix) (ip : Ipv4Addr) : Bool :=
  p.addr == (ip.takePrefixWrap p.prefix_len).addr

/-- IpPrefix::ip, the base address of the prefix. -/
def IpPrefix.ip (p : IpPrefix) : Ipv4Addr := p.addr

/-! ## Frame and packet values (src/proto) -/

/-- UdpDatagram (src/proto/udp.rs). -/
structure UdpDatagram where
  src_port : Nat
  dst_port : Nat
  data : List Nat
deriving DecidableEq, Repr

/-- Ipv4Payload (src/proto/ipv4.rs). -/
inductive Ipv4Payload where
  | Custom (data : List Nat)
  | Udp (datagram : UdpDatagram)
deriving DecidableEq, Repr

/-- Ipv4Packet (src/proto/ipv4.rs). -/
structure Ipv4Packet where
  allow_fragmentation : Bool
  is_fragment : Bool
  fragment_identifier : Nat
  fragment_offset : Nat
  ttl : Nat
  src : Ipv4Addr
  dst : Ipv4Addr
  payload : Ipv4Payload
deriving DecidableEq, Repr

/-- Ipv4Packet::new. -/
def Ipv4Packet.new (src dst : Ipv4Addr) (payload : Ipv4Payload) : Ipv4Packet :=
  { allow_fragmentation := true, is_fragment := false, fragment_identifier := 0,
    fragment_offset := 0, ttl := 32, src := src, dst := dst, payload := payload }

/-- ArpOp (src/proto/arp.rs). -/
inductive ArpOp where
  | Request
  | Reply
deriving DecidableEq, Repr

/-- ArpIpv4Packet (src/proto/arp.rs). -/
structure ArpIpv4Packet where
  op : ArpOp
  sender_mac : MacAddr
  target_mac : MacAddr
  sender_ip : Ipv4Addr
  target_ip : Ipv4Addr
deriving DecidableEq, Repr

/-- EthPayload (src/proto/eth.rs). -/
inductive EthPayload where
  | Custom (data : List Nat)
  | Vlan (vlan_id : Nat) (inner : EthPayload)
  | Arp (packet : ArpIpv4Packet)
  | Ipv4 (packet : Ipv4Packet)
deriving DecidableEq, Repr

/-- EthFrame (src/proto/eth.rs). -/
structure EthFrame where
  src : MacAddr
  dst : MacAddr
  payload : EthPayload
deriving DecidableEq, Repr

/-! ## IP routing table (src/node/server/mod.rs) -/

/-- IpRouteKind: NextHop routes through a router, Iface sends directly
on an interface. -/
inductive IpRouteKind where
  | NextHop (next_hop : Ipv4Addr)
  | Iface (iface : Nat)
deriving DecidableEq, Repr

/-- Route: a prefix together with a route kind. -/
structure Route where
  pfx : IpPrefix
  kind : IpRouteKind
deriving DecidableEq, Repr

/-- IpRoutes: the ordered specific-routes list plus the optional default
route entry.  add_route appends to routes; set_default_route sets the
default field. -/
structure IpRoutes where
  routes : List Route
  default : Option IpRouteKind
deriving DecidableEq, Repr

/-- IpRoutes::new. -/
def IpRoutes.new : IpRoutes := ⟨[], none⟩

/-- IpRoutes::add_route. -/
def IpRoutes.addRoute (t : IpRoutes) (pfx : IpPrefix) (kind : IpRouteKind) : IpRoutes :=
  { t with routes := t.routes ++ [⟨pfx, kind⟩] }

/-- IpRoutes::set_default_route. -/
def IpRoutes.setDefaultRoute (t : IpRoutes) (kind : IpRouteKind) : IpRoutes :=
  { t with default := some kind }

/-- IpRoutes::fetch_inner.  When the recursion budget is positive, scan
the specific-routes list in order; at the first route whose prefix
matches the address, either return the interface index paired with the
base address of the prefix (Iface case) or re-run the lookup on the
next-hop address with the budget decreased by one (NextHop case).
Return none when the budget is exhausted or no route matches.  The
field self.default is never read by this function.  Prefix matching
uses the release-build semantics of matches; the two semantics agree
for every prefix length between 1 and 32. -/
def IpRoutes.fetchInner (t : IpRoutes) : Ipv4Addr → Nat → Option (Nat × Ipv4Addr)
  | _, 0 => none
  | ip, recursion + 1 =>
    match t.routes.find? (fun route => route.pfx.matchesWrap ip) with
    | some route =>
      match route.kind with
      | .Iface iface => some (iface, route.pfx.ip)
      | .NextHop next_hop => t.fetchInner next_hop recursion
    | none => none

/-- IpRoutes::fetch: fetch_inner with a recursion budget of 255. -/
def IpRoutes.fetch (t : IpRoutes) (ip : Ipv4Addr) : Option (Nat × Ipv4Addr) :=
  t.fetchInner ip 255

/-! ## Link substrate (src/net.rs)

A link owns two Vec queues; queue_0 receives the frames pushed by the
view of side 0, queue_1 those pushed by the view of side 1.  Links::get
wires the side views exactly as in the source: side 0 gets
tx = queue_0, rx = queue_1, tx_node = node_1, rx_node = node_0, and
symmetrically for side 1.  Vec::push appends at the tail and Vec::pop
removes from the tail, so recv pops the most recently enqueued frame.

Listeners are type-directed: each listener declares the runtime type of
the frames it wants (a TypeId in the source, a Nat tag here), and the
bus invokes exactly the listeners whose tag equals the tag of the link
the frame was delivered on.  An invocation is recorded as a
ListenerEvent carrying the position of the listener in the subscription
list, the sender node, the receiver node and the frame. -/

/-- LinkSide (src/net.rs). -/
inductive LinkSide where
  | Side0
  | Side1
deriving DecidableEq, Repr

/-- The other side of a link. -/
def LinkSide.opposite : LinkSide → LinkSide
  | .Side0 => .Side1
  | .Side1 => .Side0

/-- LinkQueues (src/net.rs): the two per-side Vec queues and the two
endpoint node handles (node handles are their dense indices). -/
structure LinkQueues (T : Type) where
  queue_0 : List T
  queue_1 : List T
  node_0 : Nat
  node_1 : Nat
deriving DecidableEq, Repr

/-- The queue that the view of a given side pushes into
(tx of Links::get: queue_0 for side 0, queue_1 for side 1). -/
def LinkQueues.txQueue {T : Type} (q : LinkQueues T) : LinkSide → List T
  | .Side0 => q.queue_0
  | .Side1 => q.queue_1

/-- The queue that the view of a given side pops from
(rx of Links::get: queue_1 for side 0, queue_0 for side 1). -/
def LinkQueues.rxQueue {T : Type} (q : LinkQueues T) : LinkSide → List T
  | .Side0 => q.queue_1
  | .Side1 => q.queue_0

/-- The node reported as the sender on a successful recv by this side
(tx_node of Links::get: node_1 for side 0, node_0 for side 1). -/
def LinkQueues.txNode {T : Type} (q : LinkQueues T) : LinkSide → Nat
  | .Side0 => q.node_1
  | .Side1 => q.node_0

/-- The node reported as the receiver on a successful recv by this side
(rx_node of Links::get: node_0 for side 0, node_1 for side 1). -/
def LinkQueues.rxNode {T : Type} (q : LinkQueues T) : LinkSide → Nat
  | .Side0 => q.node_0
  | .Side1 => q.node_1

/-- Replace the queue this side pops from. -/
def LinkQueues.setRx {T : Type} (q : LinkQueues T) (s : LinkSide) (l : List T) : LinkQueues T :=
  match s with
  | .Side0 => { q with queue_1 := l }
  | .Side1 => { q with queue_0 := l }

/-- A recorded listener invocation: position of the listener in the
subscription list, sender node, receiver node, delivered frame. -/
structure ListenerEvent (T : Type) where
  listener : Nat
  src : Nat
  dst : Nat
  data : T
deriving DecidableEq, Repr

/-- The bus dispatch on one delivered frame: every subscribed listener,
in subscription order, whose declared frame type tag equals the tag of
the link fires once with (sender node, receiver node, frame); the
others are skipped (the downcast in UntypedListener::event fails). -/
def fireListeners {T : Type} (listeners : List Nat) (tag : Nat) (src dst : Nat) (data : T) :
    List (ListenerEvent T) :=
  listeners.enum.filterMap
    (fun p => if p.2 = tag then some ⟨p.1, src, dst, data⟩ else none)

/-- Link::send: push the frame at the tail of the tx queue of this side. -/
def LinkQueues.sendOn {T : Type} (q : LinkQueues T) (s : LinkSide) (data : T) : LinkQueues T :=
  match s with
  | .Side0 => { q with queue_0 := q.queue_0 ++ [data] }
  | .Side1 => { q with queue_1 := q.queue_1 ++ [data] }

/-- Link::recv: pop the tail of the rx queue of this side; on success
fire the listener bus with (tx_node, rx_node, frame) and return the
frame; on an empty queue return none without firing anything. -/
def LinkQueues.recvOn {T : Type} (q : LinkQueues T) (s : LinkSide)
    (listeners : List Nat) (tag : Nat) :
    Option T × LinkQueues T × List (ListenerEvent T) :=
  match (q.rxQueue s).getLast? with
  | none => (none, q, [])
  | some data =>
    (some data, q.setRx s (q.rxQueue s).dropLast,
     fireListeners listeners tag (q.txNode s) (q.rxNode s) data)

/-- Repeatedly call send on one side, in list order. -/
def LinkQueues.sendAll {T : Type} (q : LinkQueues T) (s : LinkSide) (ds : List T) : LinkQueues T :=
  ds.foldl (fun q d => q.sendOn s d) q

/-- Call recv n times on one side, collecting the received frames in
call order; stops early on an empty queue. -/
def LinkQueues.recvAllFuel {T : Type} (q : LinkQueues T) (s : LinkSide)
    (listeners : List Nat) (tag : Nat) : Nat → List T
  | 0 => []
  | n + 1 =>
    match q.recvOn s listeners tag with
    | (none, _, _) => []
    | (some data, q2, _) => data :: q2.recvAllFuel s listeners tag n

/-! ## Network driver (src/net.rs, Network::tick)

Network::tick iterates the node list front to back and calls each
tick exactly once.  A node is modelled as its tick action on the shared
state Q holding the link queues (the Links view).  tickStates records
the state each node observes when its tick is invoked. -/

/-- Network::tick: run every node tick once, sequentially, in
registration order (ascending index in the node list). -/
def Network.tick {Q : Type} (nodes : List (Q → Q)) (st : Q) : Q :=
  nodes.foldl (fun s node => node s) st

/-- The list of states successively handed to the node ticks during one
Network::tick: the i-th entry is the state node i is invoked on. -/
def Network.tickStates {Q : Type} : List (Q → Q) → Q → List Q
  | [], _ => []
  | node :: rest, st => st :: Network.tickStates rest (node st)

/-! ## Ethernet switch (src/node/eth.rs) -/

/-- Pointwise insertion into a finite map modelled as a function
(HashMap::insert). -/
def mapInsert {K V : Type} [DecidableEq K] (f : K → Option V) (k : K) (v : V) :
    K → Option V :=
  fun x => if x = k then some v else f x

/-- EthSwitch state: the attached interface indices (keys of
link_handles, in the iteration order used by the tick) and the learned
MAC table. -/
structure EthSwitch where
  link_handles : List Nat
  mac_to_iface : MacAddr → Option Nat

/-- One iteration of the receive loop body of EthSwitch::tick, acting
on (mac table, broadcast queue, unicast queue) for one frame received
on one interface: first learn (frame.src maps to the receiving
interface, overwriting), then classify: a multicast destination goes to
the broadcast queue with the receiving interface; otherwise a
destination known to the (just updated) table goes to the unicast
queue with the mapped interface, and an unknown destination goes to
the broadcast queue with the receiving interface. -/
def EthSwitch.step
    (acc : (MacAddr → Option Nat) × List (EthFrame × Nat) × List (EthFrame × Nat))
    (recv : Nat × EthFrame) :
    (MacAddr → Option Nat) × List (EthFrame × Nat) × List (EthFrame × Nat) :=
  let tbl := mapInsert acc.1 recv.2.src recv.1
  if recv.2.dst.isMulticast then
    (tbl, acc.2.1 ++ [(recv.2, recv.1)], acc.2.2)
  else
    match tbl recv.2.dst with
    | some dst_iface => (tbl, acc.2.1, acc.2.2 ++ [(recv.2, dst_iface)])
    | none => (tbl, acc.2.1 ++ [(recv.2, recv.1)], acc.2.2)

/-- The receive phase of EthSwitch::tick over the frames popped from
the links, in pop order, each paired with its receiving interface; the
temporary queues start empty (they are cleared at the top of tick). -/
def EthSwitch.receivePhase (st : EthSwitch) (recvd : List (Nat × EthFrame)) :
    (MacAddr → Option Nat) × List (EthFrame × Nat) × List (EthFrame × Nat) :=
  recvd.foldl EthSwitch.step (st.mac_to_iface, [], [])

/-- The transmit phase of EthSwitch::tick: for every attached interface
(outer loop), send a clone of every broadcast-queue frame whose
receiving interface is different; then for every unicast-queue entry,
send the frame on the mapped interface when that interface is attached.
Output is the list of (interface, frame) transmissions in emission
order. -/
def EthSwitch.transmitPhase (link_handles : List Nat)
    (bq uq : List (EthFrame × Nat)) : List (Nat × EthFrame) :=
  link_handles.flatMap
    (fun li => bq.filterMap (fun bf => if li ≠ bf.2 then some (li, bf.1) else none))
  ++ uq.filterMap (fun uf => if uf.2 ∈ link_handles then some (uf.2, uf.1) else none)

/-- EthSwitch::tick: receive phase then transmit phase; only the
receive phase touches the MAC table. -/
def EthSwitch.tick (st : EthSwitch) (recvd : List (Nat × EthFrame)) :
    EthSwitch × List (Nat × EthFrame) :=
  let acc := st.receivePhase recvd
  ({ st with mac_to_iface := acc.1 },
   EthSwitch.transmitPhase st.link_handles acc.2.1 acc.2.2)

/-! ## Server node (src/node/server/mod.rs, src/node/server/eth.rs) -/

/-- IPv4 configuration of a server interface (field ip is the
configured address, mask the subnet prefix length). -/
structure ServerIfaceIpv4 where
  ip : Ipv4Addr
  mask : Nat
deriving DecidableEq, Repr

/-- Per-interface protocol configuration (conf of an Iface). -/
structure ServerIfaceConf where
  ipv4 : Option ServerIfaceIpv4
deriving DecidableEq, Repr

/-- ServerNode state: the interface map (index, driver state, conf) and
the IPv4 routing table.  The driver state is abstracted by the type
parameter H (the source stores it behind a Box of dyn
IfaceInnerUntyped).  The struct has no other field: in particular it
holds no queue of pending IPv4 packets. -/
structure ServerNode (H : Type) where
  ifaces : List (Nat × H × ServerIfaceConf)
  ipv4_routes : IpRoutes

/-- ServerNode::send_ipv4.  The body of this method in the source is
empty: the boxed packet argument is dropped and no field of self is
touched, so the node state is returned unchanged and nothing is
recorded anywhere. -/
def ServerNode.sendIpv4 {H : Type} (s : ServerNode H) (_packet : Ipv4Packet) : ServerNode H :=
  s

/-- ARP cache entry of an Ethernet server interface
(src/node/server/eth.rs).  Pending records the instant the ARP request
was sent (modelled in whole seconds) and the queued packets. -/
inductive ArpEntry where
  | Known (mac : MacAddr)
  | Pending (time : Nat) (packets : List Ipv4Packet)
deriving DecidableEq, Repr

/-- ARP_REQUEST_TIMEOUT = Duration::from_secs(10), in seconds. -/
def ARP_REQUEST_TIMEOUT : Nat := 10

/-- ServerEthIface state: the fixed local MAC and the ARP cache. -/
structure ServerEthIface where
  mac_addr : MacAddr
  arp_cache : Ipv4Addr → Option ArpEntry

/-- The ARP Request broadcast frame emitted by send_ipv4 when it needs
to resolve link_addr: src self.mac, dst BROADCAST, payload an ARP
packet with op Request, sender_mac self.mac, target_mac ZERO,
sender_ip the configured interface IPv4, target_ip link_addr. -/
def ServerEthIface.arpRequestFrame (s : ServerEthIface) (conf_ip link_addr : Ipv4Addr) :
    EthFrame :=
  ⟨s.mac_addr, MacAddr.BROADCAST,
   .Arp ⟨.Request, s.mac_addr, MacAddr.ZERO, conf_ip, link_addr⟩⟩

/-- ServerEthIface::send_ipv4 (ServerIface impl).  now is the current
instant in whole seconds; the elapsed age of a Pending entry recorded
at time t is now - t.  Returns the new interface state and the frames
pushed on the link, in push order. -/
def ServerEthIface.sendIpv4 (s : ServerEthIface) (conf : ServerIfaceIpv4) (now : Nat)
    (packet : Ipv4Packet) (link_addr : Ipv4Addr) : ServerEthIface × List EthFrame :=
  if link_addr.isMulticast then
    (s, [⟨s.mac_addr, MacAddr.fromMulticastIpv4 link_addr, .Ipv4 packet⟩])
  else if link_addr.isBroadcast then
    (s, [⟨s.mac_addr, MacAddr.BROADCAST, .Ipv4 packet⟩])
  else
    match s.arp_cache link_addr with
    | some (.Known mac) =>
      (s, [⟨s.mac_addr, mac, .Ipv4 packet⟩])
    | some (.Pending time packets) =>
      if now - time < ARP_REQUEST_TIMEOUT then
        ({ s with arp_cache :=
             mapInsert s.arp_cache link_addr (.Pending time (packets ++ [packet])) }, [])
      else
        ({ s with arp_cache := mapInsert s.arp_cache link_addr (.Pending now [packet]) },
         [s.arpRequestFrame conf.ip link_addr])
    | none =>
      ({ s with arp_cache := mapInsert s.arp_cache link_addr (.Pending now [packet]) },
       [s.arpRequestFrame conf.ip link_addr])

/-- ServerEthIface::set_arp: learn that ip resolves to mac.  On a
Pending entry, first emit one Ethernet frame (src self.mac, dst mac,
payload the IPv4 packet) per queued packet, draining the queue in
enqueue order; in every case the entry then becomes Known(mac). -/
def ServerEthIface.setArp (s : ServerEthIface) (ip : Ipv4Addr) (mac : MacAddr) :
    ServerEthIface × List EthFrame :=
  match s.arp_cache ip with
  | some (.Pending _ packets) =>
    ({ s with arp_cache := mapInsert s.arp_cache ip (.Known mac) },
     packets.map (fun p => ⟨s.mac_addr, mac, .Ipv4 p⟩))
  | some (.Known _) =>
    ({ s with arp_cache := mapInsert s.arp_cache ip (.Known mac) }, [])
  | none =>
    ({ s with arp_cache := mapInsert s.arp_cache ip (.Known mac) }, [])

/-- ServerEthIface::recv_arp: on a Request targeting the local IPv4,
emit a Reply to the sender, and in all Request cases learn the sender
association; on a Reply, learn the sender association. -/
def ServerEthIface.recvArp (s : ServerEthIface) (arp : ArpIpv4Packet)
    (local_ipv4 : Ipv4Addr) : ServerEthIface × List EthFrame :=
  match arp.op with
  | .Request =>
    let reply : List EthFrame :=
      if arp.target_ip = local_ipv4 then
        [⟨s.mac_addr, arp.sender_mac,
          .Arp ⟨.Reply, s.mac_addr, arp.sender_mac, local_ipv4, arp.sender_ip⟩⟩]
      else []
    let learned := s.setArp arp.sender_ip arp.sender_mac
    (learned.1, reply ++ learned.2)
  | .Reply => s.setArp arp.sender_ip arp.sender_mac

/-- The listener bus dispatch over an explicit list of (position,
declared tag) pairs; fireListeners is this dispatch applied to the
enumerated subscription list. -/
def listenerDispatch {T : Type} (tag src dst : Nat) (f : T) (ps : List (Nat × Nat)) :
    List (ListenerEvent T) :=
  ps.filterMap (fun p => if p.2 = tag then some ⟨p.1, src, dst, f⟩ else none)

/-- The state of the concrete relay scenario: one link of Nat frames
plus the log of values the receiving node has popped so far. -/
def RelayState : Type := LinkQueues Nat × List Nat

/-- A node that sends the value v on side 0 of the link. -/
def relaySender (v : Nat) : RelayState → RelayState :=
  fun st => (st.1.sendOn .Side0 v, st.2)

/-- A node that pops one frame from side 1 of the link and appends it
to its log. -/
def relayReceiver : RelayState → RelayState :=
  fun st =>
    match st.1.recvOn .Side1 [] 0 with
    | (none, q2, _) => (q2, st.2)
    | (some v, q2, _) => (q2, st.2 ++ [v])

/-- The initial relay state: an empty link between nodes 0 and 1 and an
empty log. -/
def relayInit : RelayState := (⟨[], [], 0, 1⟩, [])

/-! ## Concrete values used by witnesses -/

/-- The self-loop routing table used to exercise the recursion budget:
a single host route for 10.0.0.1 whose next hop is 10.0.0.1 itself. -/
def cycleIp : Ipv4Addr := ⟨0x0A000001⟩

/-- The one-route cyclic table. -/
def cycleRoutes : IpRoutes := ⟨[⟨⟨cycleIp, 32⟩, .NextHop cycleIp⟩], none⟩

/-- The MAC of the first demo host (main.rs). -/
def demoMac0 : MacAddr := ⟨0x00, 0x00, 0x5E, 0x00, 0x53, 0xAF⟩

/-- The IPv4 of the first demo host, 192.168.1.10. -/
def demoIp0 : Ipv4Addr := ⟨0xC0A8010A⟩

/-- The IPv4 of the second demo host, 192.168.1.11. -/
def demoIp1 : Ipv4Addr := ⟨0xC0A8010B⟩

/-- The demo IPv4 packet from 192.168.1.10 to 192.168.1.11. -/
def demoPacket : Ipv4Packet := Ipv4Packet.new demoIp0 demoIp1 (.Custom [])

/-- A fresh Ethernet interface for the first demo host, with an empty
ARP cache. -/
def demoEthIface : ServerEthIface := ⟨demoMac0, fun _ => none⟩

/-! ## Helper lemmas -/

/-- A routing table with an empty specific-routes list answers none for
every address and every recursion budget, whatever its default field
holds: fetch_inner never reads the default field. -/
lemma fetchInner_nil_routes (d : Option IpRouteKind) (ip : Ipv4Addr) (b : Nat) :
    IpRoutes.fetchInner ⟨[], d⟩ ip b = none := by
  cases b with
  | zero => rfl
  | succ n => rfl

/-- Masking with u32::MAX is reduction modulo 2^32. -/
lemma and_u32MAX (x : Nat) : x &&& u32MAX = x % u32size :=
  Nat.and_pow_two_sub_one_eq_mod x 32

/-- One NextHop hop of fetch_inner: when the first matching route is a
NextHop route, the lookup restarts at the next-hop address with the
budget decreased by one. -/
lemma fetchInner_hop (t : IpRoutes) (ip nh : Ipv4Addr) (b : Nat) (route : Route)
    (h1 : t.routes.find? (fun r => r.pfx.matchesWrap ip) = some route)
    (h2 : route.kind = .NextHop nh) :
    t.fetchInner ip (b + 1) = t.fetchInner nh b := by
  simp only [IpRoutes.fetchInner, h1, h2]

/-- On the cyclic table the lookup consumes the whole budget and
returns none for every starting budget. -/
lemma fetchInner_cycle (b : Nat) : cycleRoutes.fetchInner cycleIp b = none := by
  induction b with
  | zero => rfl
  | succ n ih =>
    rw [fetchInner_hop cycleRoutes cycleIp cycleIp n ⟨⟨cycleIp, 32⟩, .NextHop cycleIp⟩
      (by decide) rfl]
    exact ih

/-- fireListeners is the dispatch over the enumerated subscriptions. -/
lemma fireListeners_eq_dispatch {T : Type} (listeners : List Nat) (tag src dst : Nat)
    (f : T) :
    fireListeners listeners tag src dst f =
      listenerDispatch tag src dst f (listeners.enumFrom 0) :=
  rfl

/-- Splitting the dispatch at the head of the pair list. -/
lemma listenerDispatch_cons {T : Type} (tag src dst : Nat) (f : T) (n a : Nat)
    (ps : List (Nat × Nat)) :
    listenerDispatch tag src dst f ((n, a) :: ps) =
      (if a = tag then [⟨n, src, dst, f⟩] else []) ++ listenerDispatch tag src dst f ps := by
  by_cases h : a = tag <;> simp [listenerDispatch, h]

/-- Every event dispatched over listeners enumerated from n carries a
listener position of at least n. -/
lemma listenerDispatch_ge {T : Type} (tag src dst : Nat) (f : T) :
    ∀ (ls : List Nat) (n : Nat) (e : ListenerEvent T),
      e ∈ listenerDispatch tag src dst f (ls.enumFrom n) → n ≤ e.listener := by
  intro ls
  induction ls with
  | nil => intro n e he; simp [listenerDispatch] at he
  | cons a ls ih =>
    intro n e he
    rw [List.enumFrom_cons, listenerDispatch_cons] at he
    rcases List.mem_append.mp he with h1 | h2
    · by_cases hcase : a = tag
      · rw [if_pos hcase] at h1
        rcases List.mem_singleton.mp h1 with rfl
        exact Nat.le_refl n
      · rw [if_neg hcase] at h1
        simp at h1
    · exact Nat.le_of_succ_le (ih (n + 1) e h2)

/-- Each listener position occurs in the dispatched event list exactly
once when its declared tag matches the tag of the frame, and never
otherwise. -/
lemma listenerDispatch_count {T : Type} (tag src dst : Nat) (f : T) :
    ∀ (ls : List Nat) (n i : Nat) (h : i < ls.length),
      ((listenerDispatch tag src dst f (ls.enumFrom n)).countP
          (fun e => e.listener == n + i)) =
        if ls.get ⟨i, h⟩ = tag then 1 else 0 := by
  intro ls
  induction ls with
  | nil => intro n i h; exact absurd h (Nat.not_lt_zero i)
  | cons a ls ih =>
    intro n i h
    have hz : ∀ e ∈ listenerDispatch tag src dst f (ls.enumFrom (n + 1)),
        ¬(e.listener == n) = true := by
      intro e he hb
      have h1 := listenerDispatch_ge tag src dst f ls (n + 1) e he
      have h2 : e.listener = n := by simpa using hb
      omega
    rw [List.enumFrom_cons, listenerDispatch_cons]
    cases i with
    | zero =>
      have hz0 : List.countP (fun e : ListenerEvent T => e.listener == n + 0)
          (listenerDispatch tag src dst f (ls.enumFrom (n + 1))) = 0 :=
        List.countP_eq_zero.mpr (fun e he hb => hz e he (Nat.add_zero n ▸ hb))
      by_cases hcase : a = tag
      · rw [if_pos hcase, List.singleton_append,
          List.countP_cons_of_pos _ _ (by simp), hz0]
        simp [List.get, hcase]
      · rw [if_neg hcase, List.nil_append, hz0]
        simp [List.get, hcase]
    | succ j =>
      have hj : j < ls.length := Nat.lt_of_succ_lt_succ h
      have htail := ih (n + 1) j hj
      have hstep : n + (j + 1) = (n + 1) + j := by omega
      have hget : (a :: ls).get ⟨j + 1, h⟩ = ls.get ⟨j, hj⟩ := rfl
      by_cases hcase : a = tag
      · rw [if_pos hcase, List.singleton_append,
          List.countP_cons_of_neg _ _ (by simp), hstep, hget]
        exact htail
      · rw [if_neg hcase, List.nil_append, hstep, hget]
        exact htail

/-- A filterMap whose function is an if-some-else-none is a filter
followed by a map. -/
lemma filterMap_ite_eq_filter_map {α β : Type} (p : α → Prop) [DecidablePred p]
    (g : α → β) :
    ∀ l : List α,
      l.filterMap (fun a => if p a then some (g a) else none) =
        (l.filter (fun a => decide (p a))).map g := by
  intro l
  induction l with
  | nil => rfl
  | cons a l ih => by_cases h : p a <;> simp [h, ih]

/-- Sending on the opposite side appends to the queue this side reads. -/
lemma rxQueue_sendOn_other {T : Type} (q : LinkQueues T) (s : LinkSide) (d : T) :
    (q.sendOn s.opposite d).rxQueue s = q.rxQueue s ++ [d] := by
  cases s <;> rfl

/-- setRx replaces exactly the queue this side reads. -/
lemma rxQueue_setRx {T : Type} (q : LinkQueues T) (s : LinkSide) (l : List T) :
    (q.setRx s l).rxQueue s = l := by
  cases s <;> rfl

/-- A sequence of sends from the opposite side appends, in order, to
the queue this side reads. -/
lemma rxQueue_sendAll_other {T : Type} (s : LinkSide) :
    ∀ (ds : List T) (q : LinkQueues T),
      (q.sendAll s.opposite ds).rxQueue s = q.rxQueue s ++ ds := by
  intro ds
  induction ds with
  | nil => intro q; simp [LinkQueues.sendAll]
  | cons d ds ih =>
    intro q
    simp only [LinkQueues.sendAll, List.foldl_cons]
    have hq := ih (q.sendOn s.opposite d)
    simp only [LinkQueues.sendAll] at hq
    rw [hq, rxQueue_sendOn_other]
    simp

/-- recv on a queue that ends with f pops f, leaves the front of the
queue, and fires the listeners on f with (sender, receiver). -/
lemma recvOn_concat {T : Type} (q : LinkQueues T) (s : LinkSide) (listeners : List Nat)
    (tag : Nat) (l : List T) (f : T) (h : q.rxQueue s = l ++ [f]) :
    q.recvOn s listeners tag =
      (some f, q.setRx s l, fireListeners listeners tag (q.txNode s) (q.rxNode s) f) := by
  simp [LinkQueues.recvOn, h, List.getLast?_concat, List.dropLast_concat]

/-- Draining a queue of length n with n recv calls returns its content
in reverse order. -/
lemma recvAllFuel_reverse {T : Type} (s : LinkSide) (listeners : List Nat) (tag : Nat) :
    ∀ (l : List T) (q : LinkQueues T), q.rxQueue s = l →
      q.recvAllFuel s listeners tag l.length = l.reverse := by
  intro l
  induction l using List.reverseRecOn with
  | nil => intro q h; rfl
  | append_singleton l f ih =>
    intro q h
    rw [show (l ++ [f]).length = l.length + 1 by simp]
    simp only [LinkQueues.recvAllFuel]
    rw [recvOn_concat q s listeners tag l f h]
    show f :: (q.setRx s l).recvAllFuel s listeners tag l.length = (l ++ [f]).reverse
    rw [ih (q.setRx s l) (rxQueue_setRx q s l)]
    simp

/-- The state handed to the i-th node during Network::tick is the
initial state of the tick transformed by the nodes before i only. -/
lemma tickStates_eq_map_range {Q : Type} :
    ∀ (nodes : List (Q → Q)) (st : Q),
      Network.tickStates nodes st =
        (List.range nodes.length).map (fun i => Network.tick (nodes.take i) st) := by
  intro nodes
  induction nodes with
  | nil => intro st; rfl
  | cons n rest ih =>
    intro st
    simp only [Network.tickStates, List.length_cons]
    rw [List.range_succ_eq_map]
    simp only [List.map_cons, List.map_map]
    rw [ih (n st)]
    rfl

/-- Membership in the transmit-phase output of the switch: a pair
(interface, frame) is emitted exactly when either the interface is
attached and the frame sits in the broadcast queue with a different
receiving interface, or the interface is attached and the unicast queue
maps the frame to it. -/
lemma mem_transmitPhase (lh : List Nat) (bq uq : List (EthFrame × Nat)) (i : Nat)
    (f : EthFrame) :
    (i, f) ∈ EthSwitch.transmitPhase lh bq uq ↔
      (i ∈ lh ∧ ∃ fi, (f, fi) ∈ bq ∧ i ≠ fi) ∨ (i ∈ lh ∧ (f, i) ∈ uq) := by
  simp only [EthSwitch.transmitPhase, List.mem_append, List.mem_flatMap, List.mem_filterMap,
    Option.ite_none_right_eq_some, Option.some.injEq, Prod.mk.injEq]
  constructor
  · rintro (⟨a, ha, bf, hbf, hne, hai, hbf1⟩ | ⟨uf, huf, hin, h2i, h1f⟩)
    · have he : (f, bf.2) = bf := by rw [← hbf1]
      exact Or.inl ⟨hai ▸ ha, bf.2, he ▸ hbf, hai ▸ hne⟩
    · have he : (f, i) = uf := by rw [← h1f, ← h2i]
      exact Or.inr ⟨h2i ▸ hin, he ▸ huf⟩
  · rintro (⟨hi, fi, hbf, hne⟩ | ⟨hi, huf⟩)
    · exact Or.inl ⟨i, hi, (f, fi), hbf, hne, rfl, rfl⟩
    · exact Or.inr ⟨(f, i), huf, hi, rfl, rfl⟩

/-! ## Claim theorems -/

/-- Claim C1, settled against the code (status: code bug).  The lookup
fetch never consults the default route entry: a table holding only a
default route set by set_default_route answers none for every address,
where the claim (and the spec) require (iface, ip).  Moreover, for a
specific route of the directly-attached kind (IpRouteKind::Iface, the
Direct kind of the spec) the code returns the base address of the
matched prefix rather than the destination address of the packet:
routing 192.168.1.11 through a 192.168.1.0/24 interface route yields
link address 192.168.1.0, not 192.168.1.11. -/
theorem fetch_ignores_default_route :
    (∀ ip : Ipv4Addr, (IpRoutes.new.setDefaultRoute (.Iface 0)).fetch ip = none) ∧
    (∀ ip : Ipv4Addr, IpRoutes.new.fetch ip = none) ∧
    ((IpRoutes.new.addRoute ⟨⟨0xC0A80100⟩, 24⟩ (.Iface 0)).fetch ⟨0xC0A8010B⟩ =
      some (0, ⟨0xC0A80100⟩)) ∧
    ((IpRoutes.new.addRoute ⟨⟨0xC0A80100⟩, 24⟩ (.Iface 0)).fetch ⟨0xC0A8010B⟩ ≠
      some (0, ⟨0xC0A8010B⟩)) :=
  ⟨fun ip => fetchInner_nil_routes (some (.Iface 0)) ip 255,
   fun ip => fetchInner_nil_routes none ip 255,
   by decide, by decide⟩

/-- Claim C2, settled against the code (status: code bug).  The body of
ServerNode::send_ipv4 in the source is empty, so calling it returns the
node state unchanged: the packet is dropped on the spot, no egress
queue exists in the ServerNode struct, and a subsequent tick (whatever
the tick does to the node state) behaves exactly as if send_ipv4 had
never been called, so the packet is never routed nor transmitted. -/
theorem send_ipv4_stub_leaves_node_unchanged :
    ∀ (H : Type) (s : ServerNode H) (packet : Ipv4Packet)
      (tickImpl : ServerNode H → ServerNode H),
      s.sendIpv4 packet = s ∧ tickImpl (s.sendIpv4 packet) = tickImpl s :=
  fun _ _ _ _ => ⟨rfl, rfl⟩

/-- Claim C7, settled against the code (status: code bug).  For the
zero-length prefix, take_prefix computes u32::MAX shifted left by
32 - 0 = 32, which overflows the u32 width: under debug-build semantics
the shift panics (matches never completes, modelled as none), and under
release-build semantics the shift amount is masked to 0, the mask
becomes u32::MAX, and matches compares 0.0.0.0 with the full address,
so it returns true only for 0.0.0.0 itself — in particular it is false
at 192.168.1.11, where the claim requires true. -/
theorem zero_prefix_matches_bug :
    ∀ ip : Ipv4Addr,
      IpPrefix.ZEROPFX.matchesChecked ip = none ∧
      (ip.val < u32size → (IpPrefix.ZEROPFX.matchesWrap ip = true ↔ ip.val = 0)) ∧
      IpPrefix.ZEROPFX.matchesWrap ⟨0xC0A8010B⟩ = false := by
  intro ip
  refine ⟨rfl, fun h => ?_, by decide⟩
  have h32 : ip.val < 2 ^ 32 := by
    have : u32size = 2 ^ 32 := by norm_num [u32size]
    exact this ▸ h
  have hmask : u32ShlWrap u32MAX 32 = 2 ^ 32 - 1 := by decide
  simp only [IpPrefix.matchesWrap, IpPrefix.ZEROPFX, Nat.sub_zero, Ipv4Addr.takePrefixWrap,
    hmask]
  rw [Nat.and_pow_two_sub_one_eq_mod, Nat.mod_eq_of_lt h32, beq_iff_eq, Ipv4Addr.mk.injEq]
  exact eq_comm

/-- Witness for Claim C7 at the address 192.168.1.11. -/
theorem zero_prefix_matches_bug_witness :
    (Ipv4Addr.mk 0xC0A8010B).val < u32size ∧
    ¬(IpPrefix.ZEROPFX.matchesWrap ⟨0xC0A8010B⟩ = true) :=
  ⟨by decide, fun habs =>
    by simpa using ((zero_prefix_matches_bug ⟨0xC0A8010B⟩).2.1 (by decide)).mp habs⟩

/-- Claim C8 (status: confirmed): fetch runs fetch_inner with a budget
of 255; a budget of 0 answers none immediately; following an Indirect
(NextHop) route re-runs the lookup on the next-hop address with the
budget decreased by one; and on a cyclic table (a host route whose next
hop is its own address) the lookup exhausts the budget and returns none
for every budget, so fetch terminates with none instead of looping.
Termination on every table and address holds by construction: the
embedding of fetch_inner is structurally recursive on the budget. -/
theorem fetch_recursion_budget :
    (∀ (t : IpRoutes) (ip : Ipv4Addr), t.fetch ip = t.fetchInner ip 255) ∧
    (∀ (t : IpRoutes) (ip : Ipv4Addr), t.fetchInner ip 0 = none) ∧
    (∀ (t : IpRoutes) (ip nh : Ipv4Addr) (b : Nat) (route : Route),
      t.routes.find? (fun r => r.pfx.matchesWrap ip) = some route →
      route.kind = .NextHop nh →
      t.fetchInner ip (b + 1) = t.fetchInner nh b) ∧
    (∀ b : Nat, cycleRoutes.fetchInner cycleIp b = none) ∧
    cycleRoutes.fetch cycleIp = none :=
  ⟨fun _ _ => rfl,
   fun _ _ => rfl,
   fun t ip nh b route h1 h2 => fetchInner_hop t ip nh b route h1 h2,
   fetchInner_cycle,
   fetchInner_cycle 255⟩

/-- Claim C4 (status: confirmed): on every EthSwitch tick, each
received frame first has its source learned (immediately after the
step, the table maps frame.src to the receiving interface, overwriting
any prior entry); then a multicast destination, or a destination
unknown to the just-updated table, queues the frame for flooding with
its receiving interface, while a known destination queues it for
unicast to the mapped interface only; the transmit phase emits a
flooded frame on every attached interface except the receiving one and
a unicast frame only on its mapped interface; and the tick leaves the
MAC table exactly as the receive phase built it (transmission never
modifies it) and the attached-interface set unchanged. -/
theorem eth_switch_tick_spec :
    (∀ (tbl : MacAddr → Option Nat) (bq uq : List (EthFrame × Nat)) (iface : Nat)
       (frame : EthFrame),
       (EthSwitch.step (tbl, bq, uq) (iface, frame)).1 frame.src = some iface) ∧
    (∀ (tbl : MacAddr → Option Nat) (bq uq : List (EthFrame × Nat)) (iface : Nat)
       (frame : EthFrame),
       frame.dst.isMulticast = true →
       EthSwitch.step (tbl, bq, uq) (iface, frame) =
         (mapInsert tbl frame.src iface, bq ++ [(frame, iface)], uq)) ∧
    (∀ (tbl : MacAddr → Option Nat) (bq uq : List (EthFrame × Nat)) (iface : Nat)
       (frame : EthFrame) (d : Nat),
       frame.dst.isMulticast = false →
       mapInsert tbl frame.src iface frame.dst = some d →
       EthSwitch.step (tbl, bq, uq) (iface, frame) =
         (mapInsert tbl frame.src iface, bq, uq ++ [(frame, d)])) ∧
    (∀ (tbl : MacAddr → Option Nat) (bq uq : List (EthFrame × Nat)) (iface : Nat)
       (frame : EthFrame),
       frame.dst.isMulticast = false →
       mapInsert tbl frame.src iface frame.dst = none →
       EthSwitch.step (tbl, bq, uq) (iface, frame) =
         (mapInsert tbl frame.src iface, bq ++ [(frame, iface)], uq)) ∧
    (∀ (lh : List Nat) (bq uq : List (EthFrame × Nat)) (i : Nat) (f : EthFrame),
       (i, f) ∈ EthSwitch.transmitPhase lh bq uq ↔
         (i ∈ lh ∧ ∃ fi, (f, fi) ∈ bq ∧ i ≠ fi) ∨ (i ∈ lh ∧ (f, i) ∈ uq)) ∧
    (∀ (st : EthSwitch) (recvd : List (Nat × EthFrame)),
       (st.tick recvd).1.mac_to_iface = (st.receivePhase recvd).1 ∧
       (st.tick recvd).1.link_handles = st.link_handles ∧
       (st.tick recvd).2 =
         EthSwitch.transmitPhase st.link_handles (st.receivePhase recvd).2.1
           (st.receivePhase recvd).2.2) := by
  refine ⟨?_, ?_, ?_, ?_, mem_transmitPhase, fun st recvd => ⟨rfl, rfl, rfl⟩⟩
  · intro tbl bq uq iface frame
    simp only [EthSwitch.step]
    split
    · simp [mapInsert]
    · split <;> simp [mapInsert]
  · intro tbl bq uq iface frame hmc
    simp [EthSwitch.step, hmc]
  · intro tbl bq uq iface frame d hmc hk
    simp [EthSwitch.step, hmc, hk]
  · intro tbl bq uq iface frame hmc hk
    simp [EthSwitch.step, hmc, hk]

/-- Witness for Claim C4: a unicast frame to a learned MAC goes to the
unicast queue of the mapped interface. -/
theorem eth_switch_tick_spec_witness :
    (EthFrame.mk ⟨0, 0, 0x5E, 0, 0x53, 0xAF⟩ ⟨0, 0, 0x5E, 0, 0x53, 0xB0⟩
        (.Custom [1])).dst.isMulticast = false ∧
    mapInsert (mapInsert (fun _ => none) ⟨0, 0, 0x5E, 0, 0x53, 0xB0⟩ 1)
        (EthFrame.mk ⟨0, 0, 0x5E, 0, 0x53, 0xAF⟩ ⟨0, 0, 0x5E, 0, 0x53, 0xB0⟩
          (.Custom [1])).src 0
        (EthFrame.mk ⟨0, 0, 0x5E, 0, 0x53, 0xAF⟩ ⟨0, 0, 0x5E, 0, 0x53, 0xB0⟩
          (.Custom [1])).dst = some 1 ∧
    EthSwitch.step (mapInsert (fun _ => none) ⟨0, 0, 0x5E, 0, 0x53, 0xB0⟩ 1, [], [])
        (0, EthFrame.mk ⟨0, 0, 0x5E, 0, 0x53, 0xAF⟩ ⟨0, 0, 0x5E, 0, 0x53, 0xB0⟩
          (.Custom [1])) =
      (mapInsert (mapInsert (fun _ => none) ⟨0, 0, 0x5E, 0, 0x53, 0xB0⟩ 1)
         ⟨0, 0, 0x5E, 0, 0x53, 0xAF⟩ 0, [],
       [] ++ [(EthFrame.mk ⟨0, 0, 0x5E, 0, 0x53, 0xAF⟩ ⟨0, 0, 0x5E, 0, 0x53, 0xB0⟩
          (.Custom [1]), 1)]) :=
  ⟨by decide, by decide,
   eth_switch_tick_spec.2.2.1 (mapInsert (fun _ => none) ⟨0, 0, 0x5E, 0, 0x53, 0xB0⟩ 1)
     [] [] 0 _ 1 (by decide) (by decide)⟩

/-- Claim C9 (status: confirmed): the switch excludes the receiving
interface only when flooding.  When the (just learned) MAC table maps
the unicast destination of a received frame to the very interface the
frame arrived on, the tick transmits the frame back out that same
interface. -/
theorem eth_switch_unicast_hairpin :
    ∀ (st : EthSwitch) (iface : Nat) (frame : EthFrame),
      frame.dst.isMulticast = false →
      mapInsert st.mac_to_iface frame.src iface frame.dst = some iface →
      iface ∈ st.link_handles →
      (iface, frame) ∈ (st.tick [(iface, frame)]).2 := by
  intro st iface frame hmc hk hin
  have hrp : st.receivePhase [(iface, frame)] =
      (mapInsert st.mac_to_iface frame.src iface, [], [] ++ [(frame, iface)]) := by
    simp only [EthSwitch.receivePhase, List.foldl_cons, List.foldl_nil]
    simp [EthSwitch.step, hmc, hk]
  have hout : (st.tick [(iface, frame)]).2 =
      EthSwitch.transmitPhase st.link_handles [] ([] ++ [(frame, iface)]) := by
    simp only [EthSwitch.tick, hrp]
  rw [hout]
  exact (mem_transmitPhase st.link_handles [] ([] ++ [(frame, iface)]) iface frame).mpr
    (Or.inr ⟨hin, by simp⟩)

/-- Witness for Claim C9: a frame whose destination equals its own
source, received on interface 0 of a two-port switch with an empty
table, is sent back out interface 0. -/
theorem eth_switch_unicast_hairpin_witness :
    (EthFrame.mk demoMac0 demoMac0 (.Custom [])).dst.isMulticast = false ∧
    mapInsert (EthSwitch.mk [0, 1] (fun _ => none)).mac_to_iface
      (EthFrame.mk demoMac0 demoMac0 (.Custom [])).src 0
      (EthFrame.mk demoMac0 demoMac0 (.Custom [])).dst = some 0 ∧
    (0, EthFrame.mk demoMac0 demoMac0 (.Custom [])) ∈
      ((EthSwitch.mk [0, 1] (fun _ => none)).tick
        [(0, EthFrame.mk demoMac0 demoMac0 (.Custom []))]).2 :=
  ⟨by decide, by decide,
   eth_switch_unicast_hairpin (EthSwitch.mk [0, 1] (fun _ => none)) 0
     (EthFrame.mk demoMac0 demoMac0 (.Custom [])) (by decide) (by decide)
     (by decide)⟩

/-- Claim C3 (status: confirmed): the per-entry ARP state machine of a
server Ethernet interface.  For IPv4 egress on a unicast, non-broadcast
link address: a Vacant entry emits the ARP Request broadcast (op
Request, sender_mac self.mac, target_mac ZERO, sender_ip conf.ip,
target_ip link_addr) and becomes Pending(now, [packet]); a Pending
entry younger than 10 seconds only appends the packet to its queue; a
Pending entry aged 10 seconds or more re-emits the Request and resets
to Pending(now, [packet]); a Known(mac) entry emits the IPv4 frame to
mac immediately with no state change.  Learning mac on a Pending entry
emits one frame (src self.mac, dst mac, payload IPv4 packet) per queued
packet in enqueue order and sets the entry to Known(mac); learning is
invoked on an ARP Reply and unconditionally for the sender of an ARP
Request. -/
theorem arp_cache_state_machine :
    ∀ (s : ServerEthIface) (conf : ServerIfaceIpv4) (now : Nat) (packet : Ipv4Packet)
      (link_addr : Ipv4Addr),
      link_addr.isMulticast = false →
      link_addr.isBroadcast = false →
      ((s.arp_cache link_addr = none →
         s.sendIpv4 conf now packet link_addr =
           ({ s with arp_cache := mapInsert s.arp_cache link_addr (.Pending now [packet]) },
            [s.arpRequestFrame conf.ip link_addr])) ∧
       (∀ t q, s.arp_cache link_addr = some (.Pending t q) →
         now - t < ARP_REQUEST_TIMEOUT →
         s.sendIpv4 conf now packet link_addr =
           ({ s with arp_cache :=
                mapInsert s.arp_cache link_addr (.Pending t (q ++ [packet])) }, [])) ∧
       (∀ t q, s.arp_cache link_addr = some (.Pending t q) →
         ARP_REQUEST_TIMEOUT ≤ now - t →
         s.sendIpv4 conf now packet link_addr =
           ({ s with arp_cache := mapInsert s.arp_cache link_addr (.Pending now [packet]) },
            [s.arpRequestFrame conf.ip link_addr])) ∧
       (∀ mac, s.arp_cache link_addr = some (.Known mac) →
         s.sendIpv4 conf now packet link_addr = (s, [⟨s.mac_addr, mac, .Ipv4 packet⟩])) ∧
       (∀ ip t q mac, s.arp_cache ip = some (.Pending t q) →
         s.setArp ip mac =
           ({ s with arp_cache := mapInsert s.arp_cache ip (.Known mac) },
            q.map (fun p => ⟨s.mac_addr, mac, .Ipv4 p⟩))) ∧
       (∀ (arp : ArpIpv4Packet) (local_ipv4 : Ipv4Addr), arp.op = .Reply →
         s.recvArp arp local_ipv4 = s.setArp arp.sender_ip arp.sender_mac) ∧
       (∀ (arp : ArpIpv4Packet) (local_ipv4 : Ipv4Addr), arp.op = .Request →
         (s.recvArp arp local_ipv4).1 = (s.setArp arp.sender_ip arp.sender_mac).1)) := by
  intro s conf now packet link_addr hm hb
  refine ⟨?_, ?_, ?_, ?_, ?_, ?_, ?_⟩
  · intro hc
    simp [ServerEthIface.sendIpv4, hm, hb, hc]
  · intro t q hc hlt
    simp [ServerEthIface.sendIpv4, hm, hb, hc, hlt]
  · intro t q hc hge
    simp [ServerEthIface.sendIpv4, hm, hb, hc, Nat.not_lt.mpr hge]
  · intro mac hc
    simp [ServerEthIface.sendIpv4, hm, hb, hc]
  · intro ip t q mac hc
    simp [ServerEthIface.setArp, hc]
  · intro arp local_ipv4 hop
    cases arp with
    | mk op sender_mac target_mac sender_ip target_ip =>
      cases hop
      simp [ServerEthIface.recvArp]
  · intro arp local_ipv4 hop
    cases arp with
    | mk op sender_mac target_mac sender_ip target_ip =>
      cases hop
      simp [ServerEthIface.recvArp]

/-- Witness for Claim C3: egress on a Vacant entry at 192.168.1.11
emits the ARP Request broadcast and parks the packet. -/
theorem arp_cache_state_machine_witness :
    Ipv4Addr.isMulticast demoIp1 = false ∧
    Ipv4Addr.isBroadcast demoIp1 = false ∧
    demoEthIface.arp_cache demoIp1 = none ∧
    demoEthIface.sendIpv4 ⟨demoIp0, 24⟩ 0 demoPacket demoIp1 =
      ({ demoEthIface with
           arp_cache := mapInsert demoEthIface.arp_cache demoIp1 (.Pending 0 [demoPacket]) },
       [demoEthIface.arpRequestFrame demoIp0 demoIp1]) :=
  ⟨by decide, by decide, rfl,
   (arp_cache_state_machine demoEthIface ⟨demoIp0, 24⟩ 0 demoPacket demoIp1
     (by decide) (by decide)).1 rfl⟩

/-- Witness for Claim C8: one concrete hop on the cyclic table. -/
theorem fetch_recursion_budget_witness :
    (cycleRoutes.routes.find? (fun r => r.pfx.matchesWrap cycleIp) =
      some ⟨⟨cycleIp, 32⟩, .NextHop cycleIp⟩) ∧
    cycleRoutes.fetchInner cycleIp 6 = cycleRoutes.fetchInner cycleIp 5 :=
  ⟨by decide,
   fetch_recursion_budget.2.2.1 cycleRoutes cycleIp cycleIp 5
     ⟨⟨cycleIp, 32⟩, .NextHop cycleIp⟩ (by decide) rfl⟩

/-- Claim C5 (status: confirmed): send appends the frame to the queue
that the opposite side of the link reads; recv pops the most recently
enqueued pending frame (LIFO), so draining a queue filled by n sends
from the remote side returns the frames in reverse send order; and on
each successful recv the fired events are exactly the subscribed
listeners whose declared frame type tag matches the tag of the link,
in subscription order, each invoked with (sender node, receiver node,
frame). -/
theorem link_lifo_and_listener_bus :
    (∀ (T : Type) (q : LinkQueues T) (s : LinkSide) (d : T),
       (q.sendOn s d).rxQueue s.opposite = q.rxQueue s.opposite ++ [d]) ∧
    (∀ (T : Type) (q : LinkQueues T) (s : LinkSide) (listeners : List Nat) (tag : Nat)
       (l : List T) (f : T),
       q.rxQueue s = l ++ [f] →
       q.recvOn s listeners tag =
         (some f, q.setRx s l,
          fireListeners listeners tag (q.txNode s) (q.rxNode s) f)) ∧
    (∀ (T : Type) (q : LinkQueues T) (s : LinkSide) (listeners : List Nat) (tag : Nat)
       (ds : List T),
       q.rxQueue s = [] →
       (q.sendAll s.opposite ds).recvAllFuel s listeners tag ds.length = ds.reverse) ∧
    (∀ (T : Type) (listeners : List Nat) (tag src dst : Nat) (f : T),
       fireListeners listeners tag src dst f =
         (listeners.enum.filter (fun p => decide (p.2 = tag))).map
           (fun p => ⟨p.1, src, dst, f⟩)) := by
  refine ⟨?_, ?_, ?_, ?_⟩
  · intro T q s d
    cases s <;> rfl
  · exact fun T q s listeners tag l f h => recvOn_concat q s listeners tag l f h
  · intro T q s listeners tag ds h
    have h2 : (q.sendAll s.opposite ds).rxQueue s = ds := by
      rw [rxQueue_sendAll_other, h, List.nil_append]
    exact recvAllFuel_reverse s listeners tag ds _ h2
  · intro T listeners tag src dst f
    exact filterMap_ite_eq_filter_map _ _ _

/-- Witness for Claim C5: three sends of 1, 2, 3 from side 0 are
received by side 1 as 3, 2, 1. -/
theorem link_lifo_and_listener_bus_witness :
    (LinkQueues.mk ([] : List Nat) [] 0 1).rxQueue .Side1 = [] ∧
    ((LinkQueues.mk ([] : List Nat) [] 0 1).sendAll .Side0 [1, 2, 3]).recvAllFuel
      .Side1 [0, 1] 0 3 = [3, 2, 1] :=
  ⟨rfl,
   link_lifo_and_listener_bus.2.2.1 Nat ⟨[], [], 0, 1⟩ .Side1 [0, 1] 0 [1, 2, 3] rfl⟩

/-- Claim C10 (status: confirmed): recv on an empty receive queue
returns none, leaves the link untouched, and fires no listener; on a
successful recv each subscribed listener fires exactly once when its
declared tag matches the frame type of the link and never otherwise. -/
theorem link_recv_empty_silent_and_exactly_once :
    (∀ (T : Type) (q : LinkQueues T) (s : LinkSide) (listeners : List Nat) (tag : Nat),
       q.rxQueue s = [] → q.recvOn s listeners tag = (none, q, [])) ∧
    (∀ (T : Type) (listeners : List Nat) (tag src dst : Nat) (f : T) (i : Nat)
       (h : i < listeners.length),
       (fireListeners listeners tag src dst f).countP (fun e => e.listener == i) =
         if listeners.get ⟨i, h⟩ = tag then 1 else 0) := by
  refine ⟨?_, ?_⟩
  · intro T q s listeners tag h
    simp [LinkQueues.recvOn, h]
  · intro T listeners tag src dst f i h
    have hc := listenerDispatch_count tag src dst f listeners 0 i h
    rw [Nat.zero_add] at hc
    exact hc

/-- Witness for Claim C10: recv on an empty queue is silent, and with
subscriptions tagged 7, 0, 7 and a frame of tag 7 the listener at
position 0 fires exactly once. -/
theorem link_recv_empty_silent_and_exactly_once_witness :
    (LinkQueues.mk ([] : List Nat) [] 0 1).rxQueue .Side0 = [] ∧
    (LinkQueues.mk ([] : List Nat) [] 0 1).recvOn .Side0 [5] 5 =
      (none, ⟨[], [], 0, 1⟩, []) ∧
    (0 : Nat) < [7, 0, 7].length ∧
    (fireListeners [7, 0, 7] 7 3 4 (99 : Nat)).countP (fun e => e.listener == 0) = 1 :=
  ⟨rfl,
   link_recv_empty_silent_and_exactly_once.1 Nat ⟨[], [], 0, 1⟩ .Side0 [5] 5 rfl,
   by decide,
   by simpa using
     link_recv_empty_silent_and_exactly_once.2 Nat [7, 0, 7] 7 3 4 99 0 (by decide)⟩

/-- Claim C6 (status: confirmed): Network::tick runs each registered
node exactly once, sequentially in registration order: ticking node ::
rest first runs node and then the rest on the updated state, and
ticking nodes ++ last runs last on the result of all earlier nodes;
the list of states handed to the nodes has one entry per node, and its
i-th entry is the tick of the first i nodes only, so what node M
observes during a tick is independent of every node with index at
least M.  Concretely, with one link between a sender (side 0) and a
receiver (side 1): registered as sender then receiver, the receiver
pops the frame within the same tick; registered as receiver then
sender, the receiver pops nothing that tick and pops the frame on the
following tick. -/
theorem network_tick_order :
    (∀ (Q : Type) (node : Q → Q) (nodes : List (Q → Q)) (st : Q),
       Network.tick (node :: nodes) st = Network.tick nodes (node st)) ∧
    (∀ (Q : Type) (nodes : List (Q → Q)) (node : Q → Q) (st : Q),
       Network.tick (nodes ++ [node]) st = node (Network.tick nodes st)) ∧
    (∀ (Q : Type) (nodes : List (Q → Q)) (st : Q),
       (Network.tickStates nodes st).length = nodes.length) ∧
    (∀ (Q : Type) (nodes : List (Q → Q)) (st : Q),
       Network.tickStates nodes st =
         (List.range nodes.length).map (fun i => Network.tick (nodes.take i) st)) ∧
    (Network.tick [relaySender 42, relayReceiver] relayInit).2 = [42] ∧
    (Network.tick [relayReceiver, relaySender 42] relayInit).2 = [] ∧
    (Network.tick [relayReceiver, relaySender 42]
       (Network.tick [relayReceiver, relaySender 42] relayInit)).2 = [42] := by
  refine ⟨fun Q node nodes st => rfl, ?_, ?_, fun Q => tickStates_eq_map_range, rfl, rfl, rfl⟩
  · intro Q nodes node st
    simp [Network.tick]
  · intro Q nodes st
    rw [tickStates_eq_map_range]
    simp

end Netcrab
